import Mathlib

/-!
A verification development for the Cerina Protocol Foundry backend.

The Python backend is shallowly embedded: strings are character lists, the
SQLite table of draft embeddings is a list of rows, serialized (JSON) column
values are a sum of "decodes to a value" and "corrupt", floating point vectors
are rational vectors, and the external OpenAI embedding capability is an
injected function parameter.  Each definition mirrors one function of the
source (file and line references are given in the doc comments).
-/

namespace Foundry

/-- Python regex `\s` on the ASCII whitespace characters
(space, tab, newline, carriage return, vertical tab, form feed);
the backend only manipulates ASCII text where this predicate is used. -/
def isPyWs (c : Char) : Bool :=
  c = ' ' || c = '\t' || c = '\n' || c = '\r' || c = '\x0b' || c = '\x0c'

/-- Python regex `\w` word-character test (ASCII range):
letters, digits and the underscore. -/
def isWordChar (c : Char) : Bool :=
  (('a' ≤ c) && (c ≤ 'z')) || (('A' ≤ c) && (c ≤ 'Z')) ||
    (('0' ≤ c) && (c ≤ '9')) || c = '_'

/-- Python `str.lower` on one character (ASCII case mapping). -/
def lowerChar (c : Char) : Char :=
  if 65 ≤ c.toNat ∧ c.toNat ≤ 90 then Char.ofNat (c.toNat + 32) else c

/-- Python `str.lower` on a string (modelled as a character list). -/
def lowerStr (s : List Char) : List Char := s.map lowerChar

/-- Python `str.strip`: drop whitespace from both ends. -/
def pyStrip (s : List Char) : List Char :=
  ((s.dropWhile isPyWs).reverse.dropWhile isPyWs).reverse

/-- Helper for `re.sub` over `\s+`: the flag records whether the previous
character belonged to a whitespace run that has already produced its space. -/
def collapseAux : Bool → List Char → List Char
  | _, [] => []
  | prevWs, c :: rest =>
    if isPyWs c then
      if prevWs then collapseAux true rest else ' ' :: collapseAux true rest
    else c :: collapseAux false rest

/-- Model of `re.sub` replacing every maximal whitespace run with a single space
(vector_store.py line 232). -/
def collapseWs (s : List Char) : List Char := collapseAux false s

/-- Model of `re.sub` removing punctuation: keep exactly the word and whitespace
characters (vector_store.py line 233). -/
def removePunct (s : List Char) : List Char :=
  s.filter (fun c => isWordChar c || isPyWs c)

/-- Model of `vector_store._normalize_message` (lines 228-234): lowercase, strip,
collapse whitespace runs, remove punctuation, truncate to 200 characters. -/
def normalize_message (s : List Char) : List Char :=
  (removePunct (collapseWs (pyStrip (lowerStr s)))).take 200

/-- The fixed topic vocabulary of `extract_topics` (vector_store.py lines 30-36). -/
def topicVocabulary : List (List Char) :=
  ["anxiety".data, "depression".data, "stress".data, "panic".data, "phobia".data,
   "ocd".data, "ptsd".data, "trauma".data, "grief".data, "anger".data, "sleep".data,
   "insomnia".data, "eating".data, "addiction".data, "relationship".data, "social".data,
   "work".data, "school".data, "exam".data, "presentation".data, "public speaking".data,
   "confidence".data, "self esteem".data, "loneliness".data, "guilt".data, "shame".data,
   "worry".data, "fear".data, "anger management".data, "mindfulness".data,
   "relaxation".data]

/-- The Python substring test `needle in haystack`. -/
def isSubstr (needle : List Char) : List Char → Bool
  | [] => needle.isEmpty
  | c :: rest => needle.isPrefixOf (c :: rest) || isSubstr needle rest

/-- Model of `vector_store.extract_topics` (lines 28-38): the topic keywords occurring in
the lowercased text; the Python set is modelled as the sublist of the fixed
vocabulary that matches. -/
def extract_topics (text : List Char) : List (List Char) :=
  topicVocabulary.filter (fun t => isSubstr t (lowerStr text))

/-- Truthiness of `query_topics.intersection(draft_topics)`
(vector_store.py line 194). -/
def topicsOverlap (qs ds : List (List Char)) : Bool :=
  qs.any (fun t => ds.contains t)

/-- Running sum of pairwise products, `sum(a * b for a, b in zip(vec1, vec2))`
(vector_store.py line 72). -/
def dotProduct (v1 v2 : List ℚ) : ℚ :=
  (v1.zip v2).foldl (fun acc p => acc + p.1 * p.2) 0

/-- Model of `sum(a * a for a in vec)` (vector_store.py lines 73-74, before the square root). -/
def sumSquares (v : List ℚ) : ℚ :=
  v.foldl (fun acc a => acc + a * a) 0

/-- The magnitude `sum(a * a for a in vec) ** 0.5`, modelled with the rational
square root: it is exact on perfect squares and is zero exactly on the zero
input, which is the only property the control flow of `cosine_similarity`
depends on. -/
def magnitude (v : List ℚ) : ℚ := Rat.sqrt (sumSquares v)

/-- Model of `vector_store.cosine_similarity` (lines 70-79): the division only runs when
both magnitudes are nonzero. -/
def cosine_similarity (v1 v2 : List ℚ) : ℚ :=
  if magnitude v1 = 0 ∨ magnitude v2 = 0 then 0
  else dotProduct v1 v2 / (magnitude v1 * magnitude v2)

/-- A serialized (JSON text) column value: either text that decodes to an `α`,
or text that `json.loads` rejects. -/
inductive Enc (α : Type) where
  | enc (value : α)
  | corrupt
deriving DecidableEq

/-- Model of `json.loads` applied to a serialized column value. -/
def decodeEnc {α : Type} : Enc α → Option α
  | .enc v => some v
  | .corrupt => none

/-- Model of `models.ExerciseDraft`. -/
structure ExerciseDraft where
  title : List Char
  content : List Char
  instructions : List Char
deriving DecidableEq

/-- Model of `models.ReviewMetadata`. -/
structure ReviewMetadata where
  safety_score : Option ℚ := none
  empathy_score : Option ℚ := none
  clarity_score : Option ℚ := none
  iteration_count : Int := 0
  total_revisions : Int := 0
deriving DecidableEq

/-- The content of the serialized metadata column:
`json.dumps(metadata.model_dump())` when a `ReviewMetadata` was supplied,
`json.dumps` of the empty dict otherwise (vector_store.py lines 110-118). -/
inductive MetaJson where
  | full (md : ReviewMetadata)
  | empty
deriving DecidableEq

/-- One row of the `draft_embeddings` table (vector_store.py lines 44-56).
The metadata column is nullable in the schema, hence the extra `Option`. -/
structure StoredRow where
  draft_id : List Char
  normalized_message : List Char
  draft_title : List Char
  draft_content : Enc ExerciseDraft
  embedding : Enc (List ℚ)
  original_message : List Char
  metadata : Option (Enc MetaJson)
deriving DecidableEq

/-- SQLite `INSERT OR REPLACE` keyed by the `draft_id` primary key
(vector_store.py lines 121-134): any row with the same key is removed and the
new row stored.  Row order inside a table is unspecified; the replacement is
modelled as filter-then-append. -/
def upsert (db : List StoredRow) (row : StoredRow) : List StoredRow :=
  db.filter (fun r => decide (¬ r.draft_id = row.draft_id)) ++ [row]

/-- Model of `f"{draft.title} {draft.content} {draft.instructions}"`
(vector_store.py line 104). -/
def searchableText (d : ExerciseDraft) : List Char :=
  d.title ++ ' ' :: (d.content ++ ' ' :: d.instructions)

/-- Serialization of the optional metadata argument
(vector_store.py lines 110-118). -/
def metaJsonOf : Option ReviewMetadata → MetaJson
  | some md => .full md
  | none => .empty

/-- The row written by `index_draft` (vector_store.py lines 121-134): keyed by
the normalized message, storing the serialized draft, the embedding of the
searchable draft text, the raw original message and the serialized metadata. -/
def indexedRow (emb : List Char → List ℚ) (draft : ExerciseDraft)
    (original_message : List Char) (metadata : Option ReviewMetadata) : StoredRow :=
  { draft_id := normalize_message original_message
    normalized_message := normalize_message original_message
    draft_title := draft.title
    draft_content := .enc draft
    embedding := .enc (emb (searchableText draft))
    original_message := original_message
    metadata := some (.enc (metaJsonOf metadata)) }

/-- Model of `vector_store.index_draft` (lines 82-137): normalize the original message
into the key, embed the searchable draft text through the injected external
embedding capability `emb`, serialize draft, embedding and metadata, and upsert.
Returns the key together with the new table. -/
def index_draft (emb : List Char → List ℚ) (draft : ExerciseDraft)
    (original_message : List Char) (metadata : Option ReviewMetadata)
    (db : List StoredRow) : List Char × List StoredRow :=
  (normalize_message original_message,
   upsert db (indexedRow emb draft original_message metadata))

/-- One element of the list returned by `search_drafts`
(vector_store.py lines 200-208). -/
structure SearchResult where
  draft_id : List Char
  normalized_message : List Char
  draft : ExerciseDraft
  original_message : List Char
  metadata : MetaJson
  similarity : ℚ
  title : List Char
deriving DecidableEq

/-- The row scan of `search_drafts` (vector_store.py lines 174-208): decode each
row's embedding (`json.loads` raising there aborts the whole search), keep rows
whose similarity clears the threshold and, when the query has topic keywords,
whose original message concatenated with the draft title shares a topic keyword
with the query; decode the payload of surviving rows; collect results in row
order. -/
def scanRows (queryEmbedding : List ℚ) (queryTopics : List (List Char))
    (threshold : ℚ) : List StoredRow → Except Unit (List SearchResult)
  | [] => .ok []
  | row :: rest =>
    match decodeEnc row.embedding with
    | none => .error ()
    | some stored =>
      if threshold ≤ cosine_similarity queryEmbedding stored then
        if queryTopics ≠ [] ∧
            topicsOverlap queryTopics
              (extract_topics (row.original_message ++ ' ' :: row.draft_title))
              = false then
          scanRows queryEmbedding queryTopics threshold rest
        else
          match decodeEnc row.draft_content with
          | none => .error ()
          | some draft =>
            match (match row.metadata with
                   | none => some MetaJson.empty
                   | some m => decodeEnc m) with
            | none => .error ()
            | some md =>
              match scanRows queryEmbedding queryTopics threshold rest with
              | .error e => .error e
              | .ok results =>
                .ok ({ draft_id := row.draft_id
                       normalized_message := row.normalized_message
                       draft := draft
                       original_message := row.original_message
                       metadata := md
                       similarity := cosine_similarity queryEmbedding stored
                       title := row.draft_title } :: results)
      else scanRows queryEmbedding queryTopics threshold rest

/-- Insertion into a similarity-descending list, placing the inserted element
after earlier-scanned elements of equal similarity (the Python sort is stable). -/
def insertDesc (r : SearchResult) : List SearchResult → List SearchResult
  | [] => [r]
  | x :: xs => if x.similarity ≤ r.similarity then r :: x :: xs else x :: insertDesc r xs

/-- Model of `results.sort(key=similarity, reverse=True)` (vector_store.py line 211). -/
def sortDesc : List SearchResult → List SearchResult
  | [] => []
  | x :: xs => insertDesc x (sortDesc xs)

/-- Model of `vector_store.SIMILARITY_THRESHOLD` (line 13), the default search threshold. -/
def SIMILARITY_THRESHOLD : ℚ := 3 / 4

/-- Model of `vector_store.search_drafts` (lines 140-212): embed the query through the
injected capability `emb`, scan every stored row, sort the survivors by
similarity descending and return at most `limit` of them.  The defaults of the
Python signature are `limit = 5` and `threshold = SIMILARITY_THRESHOLD`. -/
def search_drafts (emb : List Char → List ℚ) (query : List Char) (limit : Nat)
    (threshold : ℚ) (db : List StoredRow) : Except Unit (List SearchResult) :=
  match scanRows (emb query) (extract_topics query) threshold db with
  | .error e => .error e
  | .ok results => .ok ((sortDesc results).take limit)

/-- Model of `vector_store.delete_draft` (lines 215-225): SQL
`DELETE FROM draft_embeddings WHERE normalized_message = ?` compares the
argument verbatim against the stored key; no normalization is applied. -/
def delete_draft (key : List Char) (db : List StoredRow) : List StoredRow :=
  db.filter (fun r => decide (¬ r.normalized_message = key))

/-- Model of `models.Critique`. -/
structure Critique where
  author : List Char
  content : List Char
  approved : Bool
deriving DecidableEq

/-- Model of `models.AgentNote`. -/
structure AgentNote where
  author : List Char
  timestamp : List Char
  target : Option (List Char)
  content : List Char
  priority : List Char
deriving DecidableEq

/-- Model of `models.DraftVersion`. -/
structure DraftVersion where
  version_number : Int
  timestamp : List Char
  draft : ExerciseDraft
  created_by : List Char
  notes : List Char
deriving DecidableEq

/-- A chat turn (`langchain_core.messages.BaseMessage`): a role tag, text
content, and the optional message id that the `add_messages` reducer merges on. -/
structure Message where
  id : Option Nat
  role : List Char
  content : List Char
deriving DecidableEq

/-- Model of `state.AgentState` (state.py lines 8-25). -/
structure AgentState where
  messages : List Message
  current_draft : Option ExerciseDraft
  draft_history : List DraftVersion
  critiques : List Critique
  scratchpad : List AgentNote
  metadata : ReviewMetadata
  next_worker : Option (List Char)
  last_reviewer : Option (List Char)
deriving DecidableEq

/-- A node's partial state update: a node returns only the fields it changes,
and a field absent from the update leaves the state untouched.  For the four
reducer-annotated list fields an absent field and an empty contribution merge
identically, so both are modelled as the empty list. -/
structure StateUpdate where
  messages : List Message := []
  current_draft : Option (Option ExerciseDraft) := none
  draft_history : List DraftVersion := []
  critiques : List Critique := []
  scratchpad : List AgentNote := []
  metadata : Option ReviewMetadata := none
  next_worker : Option (Option (List Char)) := none
  last_reviewer : Option (Option (List Char)) := none
deriving DecidableEq

/-- Modelled from the spec: the reducer annotated on `messages` in state.py is
langgraph's `add_messages`, a third-party function whose source is not part of
this repository; spec section 6 specifies the merge rule for `messages` as
append.  Each incoming message is appended; when an incoming message carries
the id of an already-stored message it replaces that message in place (the
spec mentions no removal directive, so none is modelled). -/
def add_messages (old new_ : List Message) : List Message :=
  new_.foldl
    (fun acc m =>
      if acc.any (fun x => decide (m.id ≠ none ∧ x.id = m.id)) then
        acc.map (fun x => if m.id ≠ none ∧ x.id = m.id then m else x)
      else acc ++ [m])
    old

/-- The langgraph merge of one node's partial update into the thread state,
using the per-field reducers declared in `state.AgentState` (state.py lines
8-25): `add_messages` for `messages`, `operator.add` (list concatenation) for
`draft_history`, `critiques` and `scratchpad`, overwrite for scalar fields. -/
def mergeState (s : AgentState) (u : StateUpdate) : AgentState :=
  { messages := add_messages s.messages u.messages
    current_draft := u.current_draft.getD s.current_draft
    draft_history := s.draft_history ++ u.draft_history
    critiques := s.critiques ++ u.critiques
    scratchpad := s.scratchpad ++ u.scratchpad
    metadata := u.metadata.getD s.metadata
    next_worker := u.next_worker.getD s.next_worker
    last_reviewer := u.last_reviewer.getD s.last_reviewer }

/-- Merging the partial updates of a sequence of node activations, in
activation order. -/
def applyUpdates (s : AgentState) (us : List StateUpdate) : AgentState :=
  us.foldl mergeState s

/-- A constructed OpenAI client handle, carrying the api key it was built with. -/
structure OpenAIClient where
  api_key : List Char
deriving DecidableEq

/-- Model of `vector_store.get_openai_client` (lines 18-26): raise a `ValueError` when
`OPENAI_API_KEY` is unset or empty, otherwise construct a real client; there
is no degraded fallback branch. -/
def get_openai_client (env_key : Option (List Char)) : Except (List Char) OpenAIClient :=
  match env_key with
  | none => .error "OPENAI_API_KEY environment variable not set".data
  | some k =>
    if k.isEmpty then .error "OPENAI_API_KEY environment variable not set".data
    else .ok { api_key := k }

/-- Outcome of the CLI entry point as a function of the environment. -/
inductive ChatOutcome where
  | configError
  | ranChat
deriving DecidableEq

/-- Model of `chat.main` (chat.py lines 142-148): check `OPENAI_API_KEY` before
constructing the chat session; report a configuration error and return without
starting any run when the key is missing or empty. -/
def chat_main (env_key : Option (List Char)) : ChatOutcome :=
  match env_key with
  | none => .configError
  | some k => if k.isEmpty then .configError else .ranChat

/-- What the HTTP server does through startup and a first `/stream` request,
as a function of the `OPENAI_API_KEY` environment value. -/
inductive ServerBehaviour where
  | startupConfigError
  | runStarted (entry_node : List Char)
deriving DecidableEq

/-- Model of `server.lifespan` (server.py lines 19-23) followed by `stream_workflow`
(server.py lines 45-81): neither reads `OPENAI_API_KEY`, so startup succeeds
and a `/stream` request begins graph execution at the entry node
`memory_agent` (graph.py line 83) for every environment, the missing-key one
included. -/
def server_stream_start (_env_key : Option (List Char)) : ServerBehaviour :=
  .runStarted "memory_agent".data

/-! ### Supporting lemmas -/

theorem lowerChar_idem (c : Char) : lowerChar (lowerChar c) = lowerChar c := by
  unfold lowerChar
  by_cases h : 65 ≤ c.toNat ∧ c.toNat ≤ 90
  · rw [if_pos h]
    obtain ⟨h1, h2⟩ := h
    set n := c.toNat with hn
    interval_cases n <;> decide
  · rw [if_neg h, if_neg h]

theorem mem_collapseAux {c : Char} :
    ∀ {b : Bool} {l : List Char}, c ∈ collapseAux b l → c = ' ' ∨ c ∈ l := by
  intro b l
  induction l generalizing b with
  | nil => intro h; simp [collapseAux] at h
  | cons x xs ih =>
    intro h
    by_cases hx : isPyWs x = true
    · by_cases hb : b = true
      · subst hb
        simp only [collapseAux, hx, if_pos, if_true] at h
        rcases ih h with h1 | h1
        · exact Or.inl h1
        · exact Or.inr (List.mem_cons_of_mem x h1)
      · have hb' : b = false := by revert hb; cases b <;> simp
        subst hb'
        simp only [collapseAux, hx, if_true, Bool.false_eq_true, if_false,
          List.mem_cons] at h
        rcases h with h1 | h1
        · exact Or.inl h1
        · rcases ih h1 with h2 | h2
          · exact Or.inl h2
          · exact Or.inr (List.mem_cons_of_mem x h2)
    · simp only [collapseAux, hx, Bool.false_eq_true, if_false, List.mem_cons] at h
      rcases h with h1 | h1
      · exact Or.inr (h1 ▸ List.mem_cons_self x xs)
      · rcases ih h1 with h2 | h2
        · exact Or.inl h2
        · exact Or.inr (List.mem_cons_of_mem x h2)

theorem mem_pyStrip {c : Char} {s : List Char} (h : c ∈ pyStrip s) : c ∈ s := by
  unfold pyStrip at h
  rw [List.mem_reverse] at h
  have h1 := (List.dropWhile_sublist isPyWs).subset h
  rw [List.mem_reverse] at h1
  exact (List.dropWhile_sublist isPyWs).subset h1

theorem mem_normalize_message {c : Char} {s : List Char}
    (h : c ∈ normalize_message s) : c = ' ' ∨ ∃ c0, c = lowerChar c0 := by
  unfold normalize_message at h
  have h1 := List.take_subset _ _ h
  have h2 := List.filter_subset' _ h1
  rcases mem_collapseAux h2 with h3 | h3
  · exact Or.inl h3
  · have h4 := mem_pyStrip h3
    unfold lowerStr at h4
    rcases List.mem_map.1 h4 with ⟨c0, _, hc0⟩
    exact Or.inr ⟨c0, hc0.symm⟩

theorem lowerStr_normalize_message (s : List Char) :
    lowerStr (normalize_message s) = normalize_message s := by
  unfold lowerStr
  conv_rhs => rw [← List.map_id (normalize_message s)]
  apply List.map_congr_left
  intro c hc
  rcases mem_normalize_message hc with h | ⟨c0, rfl⟩
  · subst h; decide
  · exact lowerChar_idem c0

theorem removePunct_normalize_message (s : List Char) :
    removePunct (normalize_message s) = normalize_message s := by
  unfold removePunct
  rw [List.filter_eq_self]
  intro c hc
  unfold normalize_message removePunct at hc
  have h1 := List.take_subset _ _ hc
  exact (List.mem_filter.1 h1).2

theorem length_normalize_message_le (s : List Char) :
    (normalize_message s).length ≤ 200 := by
  unfold normalize_message
  rw [List.length_take]
  exact min_le_left _ _

theorem length_le_add_messages (old new_ : List Message) :
    old.length ≤ (add_messages old new_).length := by
  unfold add_messages
  induction new_ generalizing old with
  | nil => simp
  | cons m ms ih =>
    rw [List.foldl_cons]
    refine le_trans ?_ (ih _)
    by_cases h : (old.any fun x => decide (m.id ≠ none ∧ x.id = m.id)) = true
    · rw [if_pos h, List.length_map]
    · rw [if_neg h, List.length_append]
      exact Nat.le_add_right _ _

end Foundry

namespace Foundry

/-! ### C3: normalization idempotence and key invariance -/

/-- C3 counterexample: `_normalize_message` is not idempotent — on `". a"` the
punctuation removal (which runs after whitespace collapsing) leaves a leading
space that a second normalization strips — and two inputs differing only in
punctuation and whitespace-run lengths (`"a . b"` vs `"a b"`) normalize to
different keys, because removing the `.` leaves a double space. -/
theorem c3_normalize_not_idempotent :
    normalize_message (normalize_message ". a".data) ≠ normalize_message ". a".data ∧
    normalize_message "a . b".data ≠ normalize_message "a b".data := by
  constructor <;> decide

/-- C3 amended: normalization is idempotent on every input whose normalized
form is unchanged by stripping and by whitespace-run collapsing (punctuation
removal after whitespace collapsing, or the 200-character truncation, can
otherwise leave a non-fixed point); two inputs that agree after lowercasing
normalize to the same key, as do two inputs that agree after lowercasing,
stripping and whitespace-run collapsing.  Punctuation differences are not
covered (see the counterexample). -/
theorem c3_normalize_conditional_idempotence :
    (∀ s : List Char,
        pyStrip (normalize_message s) = normalize_message s →
        collapseWs (normalize_message s) = normalize_message s →
        normalize_message (normalize_message s) = normalize_message s) ∧
    (∀ s1 s2 : List Char, lowerStr s1 = lowerStr s2 →
        normalize_message s1 = normalize_message s2) ∧
    (∀ s1 s2 : List Char,
        collapseWs (pyStrip (lowerStr s1)) = collapseWs (pyStrip (lowerStr s2)) →
        normalize_message s1 = normalize_message s2) := by
  refine ⟨?_, ?_, ?_⟩
  · intro s h1 h2
    have hl := lowerStr_normalize_message s
    have hp := removePunct_normalize_message s
    have hlen := length_normalize_message_le s
    set t := normalize_message s with ht
    unfold normalize_message
    rw [hl, h1, h2, hp]
    exact List.take_of_length_le hlen
  · intro s1 s2 h
    unfold normalize_message
    rw [h]
  · intro s1 s2 h
    unfold normalize_message
    rw [h]

/-- C3 witness: a concrete idempotent input and a concrete case/whitespace-run
variation mapping to the same key. -/
theorem c3_normalize_conditional_idempotence_witness :
    normalize_message (normalize_message "hello world".data) =
      normalize_message "hello world".data ∧
    normalize_message "Hello   WORLD".data = normalize_message "hello world".data :=
  ⟨c3_normalize_conditional_idempotence.1 "hello world".data (by decide) (by decide),
   c3_normalize_conditional_idempotence.2.2 "Hello   WORLD".data "hello world".data
     (by decide)⟩

/-! ### C6: cosine similarity zero-magnitude guard -/

/-- C6: `cosine_similarity` returns 0 whenever either input has zero magnitude,
and whenever the guard passes (both magnitudes nonzero) the divisor
`magnitude v1 * magnitude v2` of the division it then executes is nonzero, so
the division never runs with a zero divisor and the function is total. -/
theorem c6_cosine_zero_guard :
    (∀ v1 v2 : List ℚ, magnitude v1 = 0 ∨ magnitude v2 = 0 →
        cosine_similarity v1 v2 = 0) ∧
    (∀ v1 v2 : List ℚ, magnitude v1 ≠ 0 → magnitude v2 ≠ 0 →
        magnitude v1 * magnitude v2 ≠ 0 ∧
        cosine_similarity v1 v2 = dotProduct v1 v2 / (magnitude v1 * magnitude v2)) := by
  constructor
  · intro v1 v2 h
    unfold cosine_similarity
    rw [if_pos h]
  · intro v1 v2 h1 h2
    refine ⟨mul_ne_zero h1 h2, ?_⟩
    unfold cosine_similarity
    rw [if_neg (not_or.2 ⟨h1, h2⟩)]

/-- C6 witness: the zero vector against `[1]` yields similarity 0, and for the
nonzero vector `[1]` the divisor is nonzero. -/
theorem c6_cosine_zero_guard_witness :
    cosine_similarity [0] [1] = 0 ∧ magnitude [1] * magnitude [1] ≠ 0 :=
  ⟨c6_cosine_zero_guard.1 [0] [1] (Or.inl (by norm_num [magnitude, sumSquares])),
   (c6_cosine_zero_guard.2 [1] [1] (by norm_num [magnitude, sumSquares])
     (by norm_num [magnitude, sumSquares])).1⟩

/-! ### C7: supervisor routing -/

/-- C8: across any sequence of node-update merges, the `messages`,
`draft_history`, `critiques` and `scratchpad` fields never shrink: the
`operator.add` reducer concatenates and the `add_messages` reducer appends or
replaces in place. -/
theorem c8_append_only_fields :
    ∀ (s : AgentState) (us : List StateUpdate),
      s.messages.length ≤ (applyUpdates s us).messages.length ∧
      s.draft_history.length ≤ (applyUpdates s us).draft_history.length ∧
      s.critiques.length ≤ (applyUpdates s us).critiques.length ∧
      s.scratchpad.length ≤ (applyUpdates s us).scratchpad.length := by
  intro s us
  induction us generalizing s with
  | nil => exact ⟨le_refl _, le_refl _, le_refl _, le_refl _⟩
  | cons u us ih =>
    have hstep :
        s.messages.length ≤ (mergeState s u).messages.length ∧
        s.draft_history.length ≤ (mergeState s u).draft_history.length ∧
        s.critiques.length ≤ (mergeState s u).critiques.length ∧
        s.scratchpad.length ≤ (mergeState s u).scratchpad.length := by
      refine ⟨length_le_add_messages _ _, ?_, ?_, ?_⟩ <;>
        simp [mergeState, List.length_append]
    have hrest := ih (mergeState s u)
    have hfold : applyUpdates s (u :: us) = applyUpdates (mergeState s u) us := rfl
    rw [hfold]
    exact ⟨le_trans hstep.1 hrest.1, le_trans hstep.2.1 hrest.2.1,
      le_trans hstep.2.2.1 hrest.2.2.1, le_trans hstep.2.2.2 hrest.2.2.2⟩

/-! ### C9: missing-credential behaviour -/

/-- C9 counterexample: with `OPENAI_API_KEY` unset the HTTP server does not
fail before a run starts — its lifespan performs no credential check, and a
`/stream` request begins executing the `memory_agent` entry node — while the
CLI entry point does fail fast. -/
theorem c9_server_starts_without_key :
    server_stream_start none = ServerBehaviour.runStarted "memory_agent".data ∧
    server_stream_start none ≠ ServerBehaviour.startupConfigError ∧
    chat_main none = ChatOutcome.configError := by
  refine ⟨rfl, ?_, rfl⟩
  decide

/-- C9 amended: when the key is missing the CLI entry point reports a
configuration error before any run, and `get_openai_client` raises a
configuration error rather than returning a degraded client (with a key it
returns a real client); the HTTP server however performs no startup check and
begins executing nodes, so the lazy `get_openai_client` failure happens only
inside a run. -/
theorem c9_config_error_handling :
    chat_main none = ChatOutcome.configError ∧
    get_openai_client none =
      Except.error "OPENAI_API_KEY environment variable not set".data ∧
    (∀ k : List Char, k.isEmpty = false →
      get_openai_client (some k) = Except.ok { api_key := k }) ∧
    (∀ env : Option (List Char),
      server_stream_start env = ServerBehaviour.runStarted "memory_agent".data) := by
  refine ⟨rfl, rfl, ?_, fun _ => rfl⟩
  intro k hk
  simp [get_openai_client, hk]

/-- C9 witness: a present nonempty key yields a real client. -/
theorem c9_config_error_handling_witness :
    get_openai_client (some "sk-test".data) = Except.ok { api_key := "sk-test".data } :=
  c9_config_error_handling.2.2.1 "sk-test".data (by decide)

/-! ### C5 and C10: upsert and verbatim delete -/

theorem filter_pred_filter_not {α : Type} (p : α → Prop) [DecidablePred p] :
    ∀ l : List α, (l.filter fun a => decide (¬ p a)).filter (fun a => decide (p a)) = [] := by
  intro l
  induction l with
  | nil => rfl
  | cons a l ih => by_cases h : p a <;> simp [h, ih]

theorem filter_key_upsert (db : List StoredRow) (row : StoredRow) :
    (upsert db row).filter (fun r => decide (r.draft_id = row.draft_id)) = [row] := by
  unfold upsert
  rw [List.filter_append, filter_pred_filter_not (fun r => r.draft_id = row.draft_id) db]
  simp

/-- C5: two `index_draft` calls whose original messages normalize to the same
key return the same key and leave exactly one stored record under it, the one
written by the second call (its vector, payload and original message): the
upsert replaces, it does not duplicate. -/
theorem c5_index_upsert_last_write_wins :
    ∀ (emb : List Char → List ℚ) (d1 d2 : ExerciseDraft) (m1 m2 : List Char)
      (md1 md2 : Option ReviewMetadata) (db : List StoredRow),
      normalize_message m1 = normalize_message m2 →
      (index_draft emb d1 m1 md1 db).1 =
        (index_draft emb d2 m2 md2 (index_draft emb d1 m1 md1 db).2).1 ∧
      (index_draft emb d2 m2 md2 (index_draft emb d1 m1 md1 db).2).2.filter
          (fun r => decide (r.draft_id = normalize_message m1)) =
        [indexedRow emb d2 m2 md2] := by
  intro emb d1 d2 m1 m2 md1 md2 db h
  constructor
  · exact h
  · rw [show (normalize_message m1) = (indexedRow emb d2 m2 md2).draft_id from h]
    exact filter_key_upsert (index_draft emb d1 m1 md1 db).2 (indexedRow emb d2 m2 md2)

/-- A constant embedding capability for concrete store runs. -/
def embConst1 : List Char → List ℚ := fun _ => [1]

/-- A concrete draft for concrete store runs. -/
def draftA : ExerciseDraft :=
  { title := "Calm Steps".data, content := "content a".data, instructions := "steps a".data }

/-- A second concrete draft for concrete store runs. -/
def draftB : ExerciseDraft :=
  { title := "Grounding".data, content := "content b".data, instructions := "steps b".data }

/-- C5 witness: `"Anxiety Help!"` and `"anxiety   help"` normalize to the same
key; re-indexing leaves exactly the second record. -/
theorem c5_index_upsert_last_write_wins_witness :
    (index_draft embConst1 draftA "Anxiety Help!".data none []).1 =
      (index_draft embConst1 draftB "anxiety   help".data none
        (index_draft embConst1 draftA "Anxiety Help!".data none []).2).1 ∧
    (index_draft embConst1 draftB "anxiety   help".data none
        (index_draft embConst1 draftA "Anxiety Help!".data none []).2).2.filter
        (fun r => decide (r.draft_id = normalize_message "Anxiety Help!".data)) =
      [indexedRow embConst1 draftB "anxiety   help".data none] :=
  c5_index_upsert_last_write_wins embConst1 draftA draftB
    "Anxiety Help!".data "anxiety   help".data none none [] (by decide)

/-- C10: `delete_draft` matches its argument verbatim against the stored key:
deleting with the key `index_draft` returned removes the indexed record;
deleting with an original text whose normalized form differs from the raw text
leaves the store unchanged (provided no stored key equals that raw text, which
`index_draft` never writes for it); deleting an absent key is a no-op. -/
theorem c10_delete_verbatim :
    (∀ (emb : List Char → List ℚ) (d : ExerciseDraft) (m : List Char)
        (md : Option ReviewMetadata) (db : List StoredRow),
        indexedRow emb d m md ∈ (index_draft emb d m md db).2 ∧
        (delete_draft (index_draft emb d m md db).1 (index_draft emb d m md db).2).filter
            (fun r => decide (r.normalized_message = (index_draft emb d m md db).1)) = []) ∧
    (∀ (emb : List Char → List ℚ) (d : ExerciseDraft) (m : List Char)
        (md : Option ReviewMetadata) (db : List StoredRow),
        normalize_message m ≠ m →
        (∀ r ∈ db, r.normalized_message ≠ m) →
        delete_draft m (index_draft emb d m md db).2 = (index_draft emb d m md db).2) ∧
    (∀ (k : List Char) (db : List StoredRow),
        (∀ r ∈ db, r.normalized_message ≠ k) → delete_draft k db = db) := by
  refine ⟨?_, ?_, ?_⟩
  · intro emb d m md db
    constructor
    · simp [index_draft, upsert]
    · exact filter_pred_filter_not
        (fun r => r.normalized_message = (index_draft emb d m md db).1)
        (index_draft emb d m md db).2
  · intro emb d m md db hnm hdb
    show (upsert db (indexedRow emb d m md)).filter
        (fun r => decide (¬ r.normalized_message = m)) = upsert db (indexedRow emb d m md)
    unfold upsert
    rw [List.filter_append]
    have h1 : (db.filter fun r => decide (¬ r.draft_id = (indexedRow emb d m md).draft_id)).filter
        (fun r => decide (¬ r.normalized_message = m)) =
        db.filter fun r => decide (¬ r.draft_id = (indexedRow emb d m md).draft_id) := by
      rw [List.filter_eq_self]
      intro r hr
      simpa using hdb r (List.filter_subset' db hr)
    have h2 : List.filter (fun r => decide (¬ r.normalized_message = m))
        [indexedRow emb d m md] = [indexedRow emb d m md] := by
      simp [indexedRow, hnm]
    rw [h1, h2]
  · intro k db hdb
    show db.filter (fun r => decide (¬ r.normalized_message = k)) = db
    rw [List.filter_eq_self]
    intro r hr
    simpa using hdb r hr

/-- C10 witness: concrete round trips — delete with the returned key removes
the record; delete with the raw `"Hello!"` (whose normalized form `"hello"`
differs) leaves the store unchanged; delete of an absent key is a no-op. -/
theorem c10_delete_verbatim_witness :
    (indexedRow embConst1 draftA "Anxiety Help!".data none ∈
        (index_draft embConst1 draftA "Anxiety Help!".data none []).2 ∧
      (delete_draft (index_draft embConst1 draftA "Anxiety Help!".data none []).1
          (index_draft embConst1 draftA "Anxiety Help!".data none []).2).filter
          (fun r => decide (r.normalized_message =
            (index_draft embConst1 draftA "Anxiety Help!".data none []).1)) = []) ∧
    delete_draft "Hello!".data (index_draft embConst1 draftA "Hello!".data none []).2 =
      (index_draft embConst1 draftA "Hello!".data none []).2 ∧
    delete_draft "absent key".data [indexedRow embConst1 draftA "anxiety".data none] =
      [indexedRow embConst1 draftA "anxiety".data none] :=
  ⟨c10_delete_verbatim.1 embConst1 draftA "Anxiety Help!".data none [],
   c10_delete_verbatim.2.1 embConst1 draftA "Hello!".data none [] (by decide) (by decide),
   c10_delete_verbatim.2.2 "absent key".data
     [indexedRow embConst1 draftA "anxiety".data none] (by decide)⟩

/-! ### Scan lemmas for the search claims -/

theorem mem_insertDesc {a r : SearchResult} :
    ∀ {l : List SearchResult}, a ∈ insertDesc r l → a = r ∨ a ∈ l := by
  intro l
  induction l with
  | nil => intro h; simpa [insertDesc] using h
  | cons x xs ih =>
    intro h
    unfold insertDesc at h
    by_cases hc : x.similarity ≤ r.similarity
    · rw [if_pos hc] at h
      simp at h
      rcases h with h1 | h1 | h1
      · exact Or.inl h1
      · exact Or.inr (h1 ▸ List.mem_cons_self x xs)
      · exact Or.inr (List.mem_cons_of_mem x h1)
    · rw [if_neg hc] at h
      rcases List.mem_cons.1 h with h1 | h1
      · exact Or.inr (h1 ▸ List.mem_cons_self x xs)
      · rcases ih h1 with h2 | h2
        · exact Or.inl h2
        · exact Or.inr (List.mem_cons_of_mem x h2)

theorem mem_sortDesc {a : SearchResult} :
    ∀ {l : List SearchResult}, a ∈ sortDesc l → a ∈ l := by
  intro l
  induction l with
  | nil => intro h; simp [sortDesc] at h
  | cons x xs ih =>
    intro h
    unfold sortDesc at h
    rcases mem_insertDesc h with h1 | h1
    · exact h1 ▸ List.mem_cons_self x xs
    · exact List.mem_cons_of_mem x (ih h1)

theorem length_insertDesc (r : SearchResult) :
    ∀ l : List SearchResult, (insertDesc r l).length = l.length + 1 := by
  intro l
  induction l with
  | nil => rfl
  | cons x xs ih =>
    unfold insertDesc
    by_cases hc : x.similarity ≤ r.similarity
    · rw [if_pos hc]
      rfl
    · rw [if_neg hc]
      simp only [List.length_cons, ih]

theorem length_sortDesc :
    ∀ l : List SearchResult, (sortDesc l).length = l.length := by
  intro l
  induction l with
  | nil => rfl
  | cons x xs ih =>
    unfold sortDesc
    rw [length_insertDesc, ih, List.length_cons]

theorem scanRows_threshold (e : List ℚ) (qt : List (List Char)) (th : ℚ) :
    ∀ (rows : List StoredRow) (rs : List SearchResult),
      scanRows e qt th rows = .ok rs → ∀ r ∈ rs, th ≤ r.similarity := by
  intro rows
  induction rows with
  | nil =>
    intro rs h r hr
    simp only [scanRows, Except.ok.injEq] at h
    subst h
    simp at hr
  | cons row rest ih =>
    intro rs h r hr
    simp only [scanRows] at h
    cases hemb : decodeEnc row.embedding with
    | none => rw [hemb] at h; simp at h
    | some stored =>
      rw [hemb] at h
      simp only at h
      by_cases hth : th ≤ cosine_similarity e stored
      · rw [if_pos hth] at h
        by_cases htop : qt ≠ [] ∧ topicsOverlap qt
            (extract_topics (row.original_message ++ ' ' :: row.draft_title)) = false
        · rw [if_pos htop] at h
          exact ih rs h r hr
        · rw [if_neg htop] at h
          cases hdc : decodeEnc row.draft_content with
          | none => rw [hdc] at h; simp at h
          | some draft =>
            rw [hdc] at h
            simp only at h
            cases hmd : (match row.metadata with
                         | none => some MetaJson.empty
                         | some m => decodeEnc m) with
            | none => rw [hmd] at h; simp at h
            | some md =>
              rw [hmd] at h
              simp only at h
              cases hrec : scanRows e qt th rest with
              | error e0 => rw [hrec] at h; simp at h
              | ok results =>
                rw [hrec] at h
                simp only [Except.ok.injEq] at h
                subst h
                rcases List.mem_cons.1 hr with h1 | h1
                · subst h1; exact hth
                · exact ih results hrec r h1
      · rw [if_neg hth] at h
        exact ih rs h r hr

theorem scanRows_topic_guard (e : List ℚ) (qt : List (List Char)) (th : ℚ)
    (hqt : qt ≠ []) :
    ∀ (rows : List StoredRow) (rs : List SearchResult),
      scanRows e qt th rows = .ok rs →
      ∀ r ∈ rs,
        topicsOverlap qt (extract_topics (r.original_message ++ ' ' :: r.title)) = true := by
  intro rows
  induction rows with
  | nil =>
    intro rs h r hr
    simp only [scanRows, Except.ok.injEq] at h
    subst h
    simp at hr
  | cons row rest ih =>
    intro rs h r hr
    simp only [scanRows] at h
    cases hemb : decodeEnc row.embedding with
    | none => rw [hemb] at h; simp at h
    | some stored =>
      rw [hemb] at h
      simp only at h
      by_cases hth : th ≤ cosine_similarity e stored
      · rw [if_pos hth] at h
        by_cases htop : qt ≠ [] ∧ topicsOverlap qt
            (extract_topics (row.original_message ++ ' ' :: row.draft_title)) = false
        · rw [if_pos htop] at h
          exact ih rs h r hr
        · rw [if_neg htop] at h
          have hover : topicsOverlap qt
              (extract_topics (row.original_message ++ ' ' :: row.draft_title)) = true := by
            rcases not_and_or.1 htop with h1 | h1
            · exact absurd hqt h1
            · revert h1
              cases topicsOverlap qt
                  (extract_topics (row.original_message ++ ' ' :: row.draft_title)) <;> simp
          cases hdc : decodeEnc row.draft_content with
          | none => rw [hdc] at h; simp at h
          | some draft =>
            rw [hdc] at h
            simp only at h
            cases hmd : (match row.metadata with
                         | none => some MetaJson.empty
                         | some m => decodeEnc m) with
            | none => rw [hmd] at h; simp at h
            | some md =>
              rw [hmd] at h
              simp only at h
              cases hrec : scanRows e qt th rest with
              | error e0 => rw [hrec] at h; simp at h
              | ok results =>
                rw [hrec] at h
                simp only [Except.ok.injEq] at h
                subst h
                rcases List.mem_cons.1 hr with h1 | h1
                · subst h1; exact hover
                · exact ih results hrec r h1
      · rw [if_neg hth] at h
        exact ih rs h r hr

theorem scanRows_length_antitone (e : List ℚ) (qt : List (List Char))
    (th1 th2 : ℚ) (hle : th1 ≤ th2) :
    ∀ (rows : List StoredRow) (l1 l2 : List SearchResult),
      scanRows e qt th1 rows = .ok l1 → scanRows e qt th2 rows = .ok l2 →
      l2.length ≤ l1.length := by
  intro rows
  induction rows with
  | nil =>
    intro l1 l2 h1 h2
    simp only [scanRows, Except.ok.injEq] at h1 h2
    subst h1
    subst h2
    exact le_refl _
  | cons row rest ih =>
    intro l1 l2 h1 h2
    simp only [scanRows] at h1 h2
    cases hemb : decodeEnc row.embedding with
    | none => rw [hemb] at h1; simp at h1
    | some stored =>
      rw [hemb] at h1 h2
      simp only at h1 h2
      by_cases hth2 : th2 ≤ cosine_similarity e stored
      · have hth1 : th1 ≤ cosine_similarity e stored := le_trans hle hth2
        rw [if_pos hth1] at h1
        rw [if_pos hth2] at h2
        by_cases htop : qt ≠ [] ∧ topicsOverlap qt
            (extract_topics (row.original_message ++ ' ' :: row.draft_title)) = false
        · rw [if_pos htop] at h1 h2
          exact ih l1 l2 h1 h2
        · rw [if_neg htop] at h1 h2
          cases hdc : decodeEnc row.draft_content with
          | none => rw [hdc] at h1; simp at h1
          | some draft =>
            rw [hdc] at h1 h2
            simp only at h1 h2
            cases hmd : (match row.metadata with
                         | none => some MetaJson.empty
                         | some m => decodeEnc m) with
            | none => rw [hmd] at h1; simp at h1
            | some md =>
              rw [hmd] at h1 h2
              simp only at h1 h2
              cases hrec1 : scanRows e qt th1 rest with
              | error e0 => rw [hrec1] at h1; simp at h1
              | ok results1 =>
                rw [hrec1] at h1
                cases hrec2 : scanRows e qt th2 rest with
                | error e0 => rw [hrec2] at h2; simp at h2
                | ok results2 =>
                  rw [hrec2] at h2
                  simp only [Except.ok.injEq] at h1 h2
                  subst h1
                  subst h2
                  simp only [List.length_cons]
                  exact Nat.succ_le_succ (ih results1 results2 hrec1 hrec2)
      · rw [if_neg hth2] at h2
        by_cases hth1 : th1 ≤ cosine_similarity e stored
        · rw [if_pos hth1] at h1
          by_cases htop : qt ≠ [] ∧ topicsOverlap qt
              (extract_topics (row.original_message ++ ' ' :: row.draft_title)) = false
          · rw [if_pos htop] at h1
            exact ih l1 l2 h1 h2
          · rw [if_neg htop] at h1
            cases hdc : decodeEnc row.draft_content with
            | none => rw [hdc] at h1; simp at h1
            | some draft =>
              rw [hdc] at h1
              simp only at h1
              cases hmd : (match row.metadata with
                           | none => some MetaJson.empty
                           | some m => decodeEnc m) with
              | none => rw [hmd] at h1; simp at h1
              | some md =>
                rw [hmd] at h1
                simp only at h1
                cases hrec1 : scanRows e qt th1 rest with
                | error e0 => rw [hrec1] at h1; simp at h1
                | ok results1 =>
                  rw [hrec1] at h1
                  simp only [Except.ok.injEq] at h1
                  subst h1
                  refine le_trans (ih results1 l2 hrec1 h2) ?_
                  simp only [List.length_cons]
                  exact Nat.le_succ _
        · rw [if_neg hth1] at h1
          exact ih l1 l2 h1 h2

theorem scanRows_corrupt_error (e : List ℚ) (qt : List (List Char)) (th : ℚ) :
    ∀ (rows : List StoredRow) (row : StoredRow), row ∈ rows →
      row.embedding = Enc.corrupt → scanRows e qt th rows = .error () := by
  intro rows
  induction rows with
  | nil => intro row hmem; simp at hmem
  | cons r0 rest ih =>
    intro row hmem hbad
    rcases List.mem_cons.1 hmem with rfl | hmem'
    · simp [scanRows, hbad, decodeEnc]
    · have hrec := ih row hmem' hbad
      simp only [scanRows]
      cases hemb : decodeEnc r0.embedding with
      | none => rfl
      | some stored =>
        simp only
        by_cases hth : th ≤ cosine_similarity e stored
        · rw [if_pos hth]
          by_cases htop : qt ≠ [] ∧ topicsOverlap qt
              (extract_topics (r0.original_message ++ ' ' :: r0.draft_title)) = false
          · rw [if_pos htop]
            exact hrec
          · rw [if_neg htop]
            cases hdc : decodeEnc r0.draft_content with
            | none => rfl
            | some draft =>
              simp only
              cases hmd : (match r0.metadata with
                           | none => some MetaJson.empty
                           | some m => decodeEnc m) with
              | none => rfl
              | some md =>
                simp only
                rw [hrec]
        · rw [if_neg hth]
          exact hrec

theorem scanRows_error_propagates (e : List ℚ) (qt : List (List Char)) (th : ℚ)
    (r0 : StoredRow) (rest : List StoredRow)
    (h : scanRows e qt th rest = .error ()) :
    scanRows e qt th (r0 :: rest) = .error () := by
  simp only [scanRows]
  cases hemb : decodeEnc r0.embedding with
  | none => rfl
  | some stored =>
    simp only
    by_cases hth : th ≤ cosine_similarity e stored
    · rw [if_pos hth]
      by_cases htop : qt ≠ [] ∧ topicsOverlap qt
          (extract_topics (r0.original_message ++ ' ' :: r0.draft_title)) = false
      · rw [if_pos htop]
        exact h
      · rw [if_neg htop]
        cases hdc : decodeEnc r0.draft_content with
        | none => rfl
        | some draft =>
          simp only
          cases hmd : (match r0.metadata with
                       | none => some MetaJson.empty
                       | some m => decodeEnc m) with
          | none => rfl
          | some md =>
            simp only
            rw [h]
    · rw [if_neg hth]
      exact h

theorem scanRows_corrupt_payload_error (e : List ℚ) (qt : List (List Char)) (th : ℚ) :
    ∀ (rows : List StoredRow) (row : StoredRow), row ∈ rows →
      (∃ v, decodeEnc row.embedding = some v ∧ th ≤ cosine_similarity e v) →
      ¬(qt ≠ [] ∧ topicsOverlap qt
          (extract_topics (row.original_message ++ ' ' :: row.draft_title)) = false) →
      row.draft_content = Enc.corrupt →
      scanRows e qt th rows = .error () := by
  intro rows
  induction rows with
  | nil => intro row hmem; simp at hmem
  | cons r0 rest ih =>
    intro row hmem hembv htop hbad
    rcases List.mem_cons.1 hmem with rfl | hmem'
    · obtain ⟨v, hvd, hvth⟩ := hembv
      simp only [scanRows]
      cases hemb : decodeEnc row.embedding with
      | none => rw [hemb] at hvd
      | some stored =>
        rw [hemb] at hvd
        injection hvd with hv
        subst hv
        simp only
        rw [if_pos hvth, if_neg htop, hbad]
        rfl
    · exact scanRows_error_propagates e qt th r0 rest (ih row hmem' hembv htop hbad)

/-! ### Concrete store rows for the search claims -/

/-- A stored record whose original request text carries no topic keyword but
whose draft title does. -/
def rowTitleOnlyTopic : StoredRow :=
  { draft_id := "hello there".data
    normalized_message := "hello there".data
    draft_title := "anxiety exercise".data
    draft_content := .enc draftA
    embedding := .enc [1]
    original_message := "hello there".data
    metadata := some (.enc .empty) }

/-- The search result produced for `rowTitleOnlyTopic` by an `"anxiety"` query
under the constant embedding (similarity 1). -/
def resultTitleOnlyTopic : SearchResult :=
  { draft_id := "hello there".data
    normalized_message := "hello there".data
    draft := draftA
    original_message := "hello there".data
    metadata := .empty
    similarity := 1
    title := "anxiety exercise".data }

/-- A stored record whose original request text carries the `"anxiety"` topic
keyword. -/
def rowAnxietyHelp : StoredRow :=
  { draft_id := "anxiety help".data
    normalized_message := "anxiety help".data
    draft_title := "Calm Steps".data
    draft_content := .enc draftA
    embedding := .enc [1]
    original_message := "anxiety help".data
    metadata := some (.enc .empty) }

/-- The search result produced for `rowAnxietyHelp` by an `"anxiety"` query
under the constant embedding (similarity 1). -/
def resultAnxietyHelp : SearchResult :=
  { draft_id := "anxiety help".data
    normalized_message := "anxiety help".data
    draft := draftA
    original_message := "anxiety help".data
    metadata := .empty
    similarity := 1
    title := "Calm Steps".data }

/-- A stored record whose serialized embedding does not decode. -/
def rowCorrupt : StoredRow :=
  { draft_id := "bad record".data
    normalized_message := "bad record".data
    draft_title := "Broken".data
    draft_content := .enc draftB
    embedding := .corrupt
    original_message := "anxiety broken".data
    metadata := some (.enc .empty) }

/-- A stored record whose embedding decodes and clears the threshold and the
topic guard for an `"anxiety"` query, but whose serialized draft payload does
not decode. -/
def rowCorruptPayload : StoredRow :=
  { draft_id := "anxiety payload".data
    normalized_message := "anxiety payload".data
    draft_title := "Broken Payload".data
    draft_content := .corrupt
    embedding := .enc [1]
    original_message := "anxiety payload".data
    metadata := some (.enc .empty) }

theorem search_rowAnxietyHelp_eval :
    search_drafts embConst1 "anxiety".data 5 SIMILARITY_THRESHOLD [rowAnxietyHelp] =
      .ok [resultAnxietyHelp] := by
  have h1 : cosine_similarity [1] [1] = 1 := by
    norm_num [cosine_similarity, magnitude, sumSquares, dotProduct, List.zip]
  have h2 : extract_topics "anxiety".data = ["anxiety".data] := by decide
  simp +decide [search_drafts, scanRows, decodeEnc, rowAnxietyHelp, resultAnxietyHelp,
    embConst1, h2, h1, SIMILARITY_THRESHOLD]
  norm_num [sortDesc, insertDesc]

theorem search_rowAnxietyHelp_eval_high_threshold :
    search_drafts embConst1 "anxiety".data 5 2 [rowAnxietyHelp] = .ok [] := by
  have h1 : cosine_similarity [1] [1] = 1 := by
    norm_num [cosine_similarity, magnitude, sumSquares, dotProduct, List.zip]
  have h2 : extract_topics "anxiety".data = ["anxiety".data] := by decide
  simp +decide [search_drafts, scanRows, decodeEnc, rowAnxietyHelp,
    embConst1, h2, h1]

/-! ### C1: the topic guard -/

/-- C1 counterexample: the query `"anxiety"` has a recognized topic keyword,
the stored record's original request text `"hello there"` shares no topic
keyword with it, the record's similarity is 1 (≥ 0.99 and above the default
threshold) — yet `search_drafts` returns the record, because its draft title
`"anxiety exercise"` carries the keyword and the guard checks the
concatenation of original message and title. -/
theorem c1_counterexample_title_topic_included :
    search_drafts embConst1 "anxiety".data 5 SIMILARITY_THRESHOLD [rowTitleOnlyTopic] =
      .ok [resultTitleOnlyTopic] ∧
    topicsOverlap (extract_topics "anxiety".data)
      (extract_topics rowTitleOnlyTopic.original_message) = false ∧
    extract_topics "anxiety".data ≠ [] ∧
    (99 : ℚ) / 100 ≤ resultTitleOnlyTopic.similarity ∧
    SIMILARITY_THRESHOLD ≤ resultTitleOnlyTopic.similarity := by
  refine ⟨?_, by decide, by decide, ?_, ?_⟩
  · have h1 : cosine_similarity [1] [1] = 1 := by
      norm_num [cosine_similarity, magnitude, sumSquares, dotProduct, List.zip]
    have h2 : extract_topics "anxiety".data = ["anxiety".data] := by decide
    simp +decide [search_drafts, scanRows, decodeEnc, rowTitleOnlyTopic,
      resultTitleOnlyTopic, embConst1, h2, h1, SIMILARITY_THRESHOLD]
    norm_num [sortDesc, insertDesc]
  · norm_num [resultTitleOnlyTopic]
  · norm_num [resultTitleOnlyTopic, SIMILARITY_THRESHOLD]

/-- C1 amended: when the query has at least one recognized topic keyword,
every record returned by `search_drafts` shares a topic keyword between the
query and the concatenation of the record's stored original request text and
its draft title — equivalently, a stored record sharing no topic keyword in
either of those is excluded regardless of similarity.  (The original request
text alone does not decide exclusion: a keyword in the title suffices, see the
counterexample.) -/
theorem c1_topic_guard_original_and_title :
    ∀ (emb : List Char → List ℚ) (query : List Char) (limit : Nat) (threshold : ℚ)
      (db : List StoredRow) (rs : List SearchResult),
      search_drafts emb query limit threshold db = .ok rs →
      extract_topics query ≠ [] →
      ∀ r ∈ rs,
        topicsOverlap (extract_topics query)
          (extract_topics (r.original_message ++ ' ' :: r.title)) = true := by
  intro emb query limit threshold db rs h hqt r hr
  unfold search_drafts at h
  cases hscan : scanRows (emb query) (extract_topics query) threshold db with
  | error e0 => rw [hscan] at h; simp at h
  | ok results =>
    rw [hscan] at h
    simp only [Except.ok.injEq] at h
    subst h
    exact scanRows_topic_guard (emb query) (extract_topics query) threshold hqt db results
      hscan r (mem_sortDesc (List.take_subset _ _ hr))

/-- C1 witness: searching `"anxiety"` over a record whose original request is
`"anxiety help"` returns it, and its original-plus-title text shares the topic
keyword with the query. -/
theorem c1_topic_guard_original_and_title_witness :
    topicsOverlap (extract_topics "anxiety".data)
      (extract_topics (resultAnxietyHelp.original_message ++ ' ' ::
        resultAnxietyHelp.title)) = true :=
  c1_topic_guard_original_and_title embConst1 "anxiety".data 5 SIMILARITY_THRESHOLD
    [rowAnxietyHelp] [resultAnxietyHelp] search_rowAnxietyHelp_eval (by decide)
    resultAnxietyHelp (List.mem_singleton.mpr rfl)

/-! ### C2: decode failures abort the scan -/

/-- C2 counterexample: a record whose serialized embedding does not decode,
stored alongside a perfectly good record, makes the whole search fail with an
error, and so does a record that clears the threshold and the topic guard but
whose serialized draft payload does not decode — in both stores the good
record (retrievable when stored alone) is not returned; neither malformed
record is skipped. -/
theorem c2_counterexample_corrupt_aborts :
    search_drafts embConst1 "anxiety".data 5 SIMILARITY_THRESHOLD
      [rowCorrupt, rowAnxietyHelp] = .error () ∧
    search_drafts embConst1 "anxiety".data 5 SIMILARITY_THRESHOLD
      [rowCorruptPayload, rowAnxietyHelp] = .error () ∧
    search_drafts embConst1 "anxiety".data 5 SIMILARITY_THRESHOLD [rowAnxietyHelp] =
      .ok [resultAnxietyHelp] := by
  refine ⟨rfl, ?_, search_rowAnxietyHelp_eval⟩
  have h1 : cosine_similarity [1] [1] = 1 := by
    norm_num [cosine_similarity, magnitude, sumSquares, dotProduct, List.zip]
  have h2 : extract_topics "anxiety".data = ["anxiety".data] := by decide
  simp +decide [search_drafts, scanRows, decodeEnc, rowCorruptPayload,
    embConst1, h2, h1, SIMILARITY_THRESHOLD]
  norm_num

/-- C2 amended: a stored record whose serialized embedding fails to decode
causes the entire `search_drafts` scan to abort with an error, wherever the
record sits in the table, and likewise a record whose similarity clears the
threshold and which passes the topic guard but whose serialized draft payload
fails to decode aborts the scan; no skipping occurs (there is no per-record
exception handling around either decode). -/
theorem c2_corrupt_record_aborts_search :
    (∀ (emb : List Char → List ℚ) (query : List Char) (limit : Nat) (threshold : ℚ)
        (db : List StoredRow) (row : StoredRow),
        row ∈ db → row.embedding = Enc.corrupt →
        search_drafts emb query limit threshold db = .error ()) ∧
    (∀ (emb : List Char → List ℚ) (query : List Char) (limit : Nat) (threshold : ℚ)
        (db : List StoredRow) (row : StoredRow) (v : List ℚ),
        row ∈ db → decodeEnc row.embedding = some v →
        threshold ≤ cosine_similarity (emb query) v →
        ¬(extract_topics query ≠ [] ∧
          topicsOverlap (extract_topics query)
            (extract_topics (row.original_message ++ ' ' :: row.draft_title)) = false) →
        row.draft_content = Enc.corrupt →
        search_drafts emb query limit threshold db = .error ()) := by
  constructor
  · intro emb query limit threshold db row hmem hbad
    unfold search_drafts
    rw [scanRows_corrupt_error (emb query) (extract_topics query) threshold db row hmem hbad]
  · intro emb query limit threshold db row v hmem hv hth htop hbad
    unfold search_drafts
    rw [scanRows_corrupt_payload_error (emb query) (extract_topics query) threshold db row
      hmem ⟨v, hv, hth⟩ htop hbad]

/-- C2 witness: a store holding only the corrupt-embedding record errors out,
and so does a store holding only the corrupt-payload record. -/
theorem c2_corrupt_record_aborts_search_witness :
    search_drafts embConst1 "anxiety".data 5 SIMILARITY_THRESHOLD [rowCorrupt] =
      .error () ∧
    search_drafts embConst1 "anxiety".data 5 SIMILARITY_THRESHOLD [rowCorruptPayload] =
      .error () :=
  ⟨c2_corrupt_record_aborts_search.1 embConst1 "anxiety".data 5 SIMILARITY_THRESHOLD
      [rowCorrupt] rowCorrupt (List.mem_singleton.mpr rfl) rfl,
   c2_corrupt_record_aborts_search.2 embConst1 "anxiety".data 5 SIMILARITY_THRESHOLD
      [rowCorruptPayload] rowCorruptPayload [1] (List.mem_singleton.mpr rfl) rfl
      (by norm_num [cosine_similarity, magnitude, sumSquares, dotProduct, List.zip,
        embConst1, SIMILARITY_THRESHOLD])
      (by decide) rfl⟩

/-! ### C4: threshold filtering and monotone result counts -/

/-- C4: every record returned by `search_drafts` scores at least `threshold`,
and for a fixed store, query and limit, raising the threshold never increases
the number of returned records. -/
theorem c4_threshold_filter_and_monotone :
    (∀ (emb : List Char → List ℚ) (query : List Char) (limit : Nat) (threshold : ℚ)
        (db : List StoredRow) (rs : List SearchResult),
        search_drafts emb query limit threshold db = .ok rs →
        ∀ r ∈ rs, threshold ≤ r.similarity) ∧
    (∀ (emb : List Char → List ℚ) (query : List Char) (limit : Nat) (th1 th2 : ℚ)
        (db : List StoredRow) (rs1 rs2 : List SearchResult),
        th1 ≤ th2 →
        search_drafts emb query limit th1 db = .ok rs1 →
        search_drafts emb query limit th2 db = .ok rs2 →
        rs2.length ≤ rs1.length) := by
  constructor
  · intro emb query limit threshold db rs h r hr
    unfold search_drafts at h
    cases hscan : scanRows (emb query) (extract_topics query) threshold db with
    | error e0 => rw [hscan] at h; simp at h
    | ok results =>
      rw [hscan] at h
      simp only [Except.ok.injEq] at h
      subst h
      exact scanRows_threshold (emb query) (extract_topics query) threshold db results
        hscan r (mem_sortDesc (List.take_subset _ _ hr))
  · intro emb query limit th1 th2 db rs1 rs2 hle h1 h2
    unfold search_drafts at h1 h2
    cases hscan1 : scanRows (emb query) (extract_topics query) th1 db with
    | error e0 => rw [hscan1] at h1; simp at h1
    | ok results1 =>
      rw [hscan1] at h1
      cases hscan2 : scanRows (emb query) (extract_topics query) th2 db with
      | error e0 => rw [hscan2] at h2; simp at h2
      | ok results2 =>
        rw [hscan2] at h2
        simp only [Except.ok.injEq] at h1 h2
        subst h1
        subst h2
        rw [List.length_take, List.length_take, length_sortDesc, length_sortDesc]
        exact min_le_min (le_refl limit)
          (scanRows_length_antitone (emb query) (extract_topics query) th1 th2 hle db
            results1 results2 hscan1 hscan2)

/-- C4 witness: at the default threshold the record (similarity 1) is returned
and scores above threshold; at threshold 2 the same search returns nothing —
zero results against one. -/
theorem c4_threshold_filter_and_monotone_witness :
    SIMILARITY_THRESHOLD ≤ resultAnxietyHelp.similarity ∧
    ([] : List SearchResult).length ≤ [resultAnxietyHelp].length :=
  ⟨c4_threshold_filter_and_monotone.1 embConst1 "anxiety".data 5 SIMILARITY_THRESHOLD
      [rowAnxietyHelp] [resultAnxietyHelp] search_rowAnxietyHelp_eval
      resultAnxietyHelp (List.mem_singleton.mpr rfl),
   c4_threshold_filter_and_monotone.2 embConst1 "anxiety".data 5 SIMILARITY_THRESHOLD 2
      [rowAnxietyHelp] [resultAnxietyHelp] [] (by norm_num [SIMILARITY_THRESHOLD])
      search_rowAnxietyHelp_eval search_rowAnxietyHelp_eval_high_threshold⟩

end Foundry
